import Mathlib

/-!
Verification development for the SimpleRenderer 2D simulation/compositing
pipeline (src/main.rs).  The Rust source is shallowly embedded:

* `f32` values are modelled at two levels of fidelity.  Statements that are
  robust to single-precision rounding (the movement and friction claims,
  whose margins — a 0.3 dead-zone against a 0.1 friction — dwarf any `f32`
  error) use exact rationals (`ℚ`), with `as u8 / u16 / i16 / i32` casts as
  Rust's saturating truncation on `ℚ`.  Statements that are sensitive to
  rounding — the alpha-blend arithmetic and the accumulated gravity on
  `velocity.y` — use a bit-exact binary32 model: every `f32` value that
  occurs there is an integer multiple of `2^-31`, kept as that integer, and
  each `f32` operation rounds its exact result to the nearest binary32
  value, ties to even (`fRnd`, `fDivRnd`), exactly as IEEE 754 prescribes.
* machine integers are `ℕ`/`ℤ`; two's-complement wrap-around is written out
  explicitly (`wrap32`, `usizeOfI32`) where the pixel-index computation of
  `World::draw` can actually overflow or go negative.  `u16` quantities such
  as sprite sizes and sheet coordinates stay far below 2^16 in this program,
  so their additions are modelled on `ℕ`.
* the wall clock read by `Animation::increment_frame` (`get_current_time`)
  is injected as an explicit `current_time : ℤ` parameter (milliseconds
  since the epoch, cast to `i128` in the source).
* fallible operations (out-of-range slice indexing, `image::get_pixel` out
  of bounds, indexing an empty sprite vector) return `Option`; `none`
  models a Rust panic.
-/

namespace SimpleRenderer

/-! ## Numeric primitives -/

/-- World width in pixels (`WORLD_WIDTH`, main.rs line 14). -/
def WORLD_WIDTH : ℕ := 256

/-- World height in pixels (`WORLD_HEIGHT`, main.rs line 15). -/
def WORLD_HEIGHT : ℕ := 144

/-- Truncation of a rational toward zero, the rounding used by Rust `as`
casts from `f32` to an integer type. -/
def ratTrunc (q : ℚ) : ℤ := if 0 ≤ q then ⌊q⌋ else ⌈q⌉

/-- Rust `f32 as u16`: truncate toward zero, saturate to `[0, 65535]`. -/
def floatToU16 (q : ℚ) : ℕ := min 65535 (ratTrunc q).toNat

/-- Rust `f32 as i16`: truncate toward zero, saturate to the `i16` range. -/
def floatToI16 (q : ℚ) : ℤ := max (-32768) (min 32767 (ratTrunc q))

/-- Rust `f32 as i32`: truncate toward zero, saturate to the `i32` range. -/
def floatToI32 (q : ℚ) : ℤ := max (-(2 ^ 31)) (min (2 ^ 31 - 1) (ratTrunc q))

/-- Rust `f32::round`: round to the nearest integer, ties away from zero. -/
def rustRound (q : ℚ) : ℚ := if 0 ≤ q then (⌊q + 1/2⌋ : ℤ) else -((⌊-q + 1/2⌋ : ℤ) : ℚ)

/-- Rust `f32::abs`. -/
def ratAbs (q : ℚ) : ℚ := if q < 0 then -q else q

/-- Two's-complement wrap-around of an `i32` arithmetic result
(release-mode overflow semantics). -/
def wrap32 (v : ℤ) : ℤ := (v + 2 ^ 31) % 2 ^ 32 - 2 ^ 31

/-- Rust `i32 as usize` (64-bit target): sign extension, i.e. reduction
modulo `2^64`; a negative index becomes a huge positive one. -/
def usizeOfI32 (v : ℤ) : ℕ := (v % 2 ^ 64).toNat

/-! ## Bit-exact binary32 arithmetic on the `2^-31` grid

Every `f32` value that occurs in the alpha-blend pipeline and in the
gravity accumulation is a nonnegative integer multiple of `2^-31` (the
smallest magnitudes are `a/255 ≥ 1/255 > 2^-8`, whose binary32 ulp is
exactly `2^-31`, and every larger binade has a coarser ulp).  Such a value
is represented by that integer (`k` stands for `k * 2^-31`), and each
`f32` operation rounds its exact real result to the nearest representable
binary32 value, ties to even — the IEEE 754 default.  A binade is found
with a fuel-based base-2 logarithm so that everything reduces inside the
kernel. -/

/-- Floor of log base 2, by fuel-based halving (`lg2Aux fuel n` is exact
for `n < 2^fuel`). -/
def lg2Aux : ℕ → ℕ → ℕ
  | 0, _ => 0
  | fuel + 1, n => if n < 2 then 0 else lg2Aux fuel (n / 2) + 1

/-- Floor of log base 2 for the magnitudes used here (all below `2^40`). -/
def lg2 (n : ℕ) : ℕ := lg2Aux 40 n

/-- The scaling factor of the grid: `1.0` is represented by `2^31`. -/
def fScale : ℤ := 2 ^ 31

/-- The integer nearest to `k / m` (for `0 ≤ k`, `0 < m`), ties to even. -/
def nearestEven (k m : ℤ) : ℤ :=
  if 2 * (k % m) < m then k / m
  else if m < 2 * (k % m) then k / m + 1
  else if (k / m) % 2 = 0 then k / m else k / m + 1

/-- Round the exact grid value `k * 2^-31` to the nearest binary32 value,
ties to even.  Values below `2^24` grid units (below `2^-7`) are exactly
representable, since the binary32 ulp there is at most `2^-31`; above
that, a value in the binade `[2^e, 2^(e+1))` is rounded to a multiple of
its ulp `2^(e-23)`, i.e. of `2^(lg2 k - 23)` grid units. -/
def fRnd (k : ℤ) : ℤ :=
  if k < 2 ^ 24 then k
  else nearestEven k (2 ^ (lg2 k.toNat - 23)) * 2 ^ (lg2 k.toNat - 23)

/-- The binary32 ulp (in grid units) of the exact quotient `k / d`, for
quotients that are 0 or at least `2^-8` — every quotient taken below. -/
def fUlpQ (k d : ℤ) : ℤ :=
  if k / d < 2 ^ 24 then 1 else 2 ^ (lg2 (k / d).toNat - 23)

/-- Binary32 division of the grid value `k` by the small positive integer
`d` (the source divides by the exactly representable `5.0` and `255.0`):
the exact quotient `k/d` grid units, correctly rounded to the nearest
multiple of its ulp, ties to even. -/
def fDivRnd (k d : ℤ) : ℤ := nearestEven k (d * fUlpQ k d) * fUlpQ k d

/-- Binary32 addition of grid values: the exact sum lies on the grid, so
rounding it is exactly the IEEE operation. -/
def fAdd (a b : ℤ) : ℤ := fRnd (a + b)

/-! ## Animation (main.rs lines 44-51 and 115-153) -/

/-- Rust `struct Animation`.  `previous_frame_time` is `i128` in the source and
holds milliseconds since the Unix epoch. -/
structure Animation where
  starting_frame_position : ℕ × ℕ
  num_frames : ℕ
  frame_duration : ℕ
  current_frame : ℕ
  current_position : ℕ × ℕ
  previous_frame_time : ℤ
deriving DecidableEq, Repr

/-- Rust `Animation::new` (main.rs lines 116-125). -/
def Animation.new (starting_frame_position : ℕ × ℕ) (num_frames frame_duration : ℕ) :
    Animation where
  starting_frame_position := starting_frame_position
  num_frames := num_frames
  frame_duration := frame_duration
  current_frame := 0
  current_position := starting_frame_position
  previous_frame_time := 0

/-- Rust `Animation::increment_frame` (main.rs lines 128-153), with the wall
clock injected as `current_time`.  `num_frames` is at least 1 for every
animation the program constructs, so the `u16` subtraction
`num_frames - 1` agrees with `ℕ` subtraction. -/
def Animation.increment_frame (a : Animation) (frame_size : ℕ × ℕ) (sheet_width : ℕ)
    (current_time : ℤ) : Animation :=
  if a.frame_duration = 0 then a
  else if current_time - a.previous_frame_time < (a.frame_duration : ℤ) then a
  else if a.num_frames - 1 ≤ a.current_frame then
    { a with current_frame := 0
             current_position := a.starting_frame_position
             previous_frame_time := current_time }
  else if sheet_width ≤ a.current_position.1 + frame_size.1 * 2 then
    { a with current_position := (0, a.current_position.2 + frame_size.2)
             current_frame := a.current_frame + 1
             previous_frame_time := current_time }
  else
    { a with current_position := (a.current_position.1 + frame_size.1, a.current_position.2)
             current_frame := a.current_frame + 1
             previous_frame_time := current_time }

/-- Sample animation used by the concrete witnesses: the player idle clip
`Animation::new((0, 0), 4, 200)` advanced to frame 1 at sheet position
(150, 0) of the 200-pixel-wide sheet. -/
def midRowAnim : Animation where
  starting_frame_position := (0, 0)
  num_frames := 4
  frame_duration := 200
  current_frame := 1
  current_position := (150, 0)
  previous_frame_time := 0

/-- Claim C7: `increment_frame` leaves the whole animation state unchanged
when `frame_duration = 0`, or when the elapsed time since
`previous_frame_time` is below `frame_duration`. -/
theorem increment_frame_noop (a : Animation) (fs : ℕ × ℕ) (sw : ℕ) (t : ℤ)
    (h : a.frame_duration = 0 ∨ t - a.previous_frame_time < (a.frame_duration : ℤ)) :
    a.increment_frame fs sw t = a := by
  unfold Animation.increment_frame
  rcases h with h | h
  · rw [if_pos h]
  · by_cases h0 : a.frame_duration = 0
    · rw [if_pos h0]
    · rw [if_neg h0, if_pos h]

/-- Witness for C7: a 200 ms clip polled after 150 ms is unchanged. -/
theorem increment_frame_noop_witness :
    ((Animation.new (0, 0) 4 200).frame_duration = 0 ∨
      (150 : ℤ) - (Animation.new (0, 0) 4 200).previous_frame_time <
        ((Animation.new (0, 0) 4 200).frame_duration : ℤ)) ∧
    (Animation.new (0, 0) 4 200).increment_frame (50, 37) 200 150 =
      Animation.new (0, 0) 4 200 :=
  ⟨by decide, increment_frame_noop _ _ _ _ (by decide)⟩

/-- Claim C6: on a due advance that is not at the last frame,
`current_position` wraps to `(0, y + frame height)` exactly when
`current_position.x + 2 * frame width ≥ sheet_width`, and otherwise moves
one frame width to the right. -/
theorem row_wrap (a : Animation) (fs : ℕ × ℕ) (sw : ℕ) (t : ℤ)
    (h0 : a.frame_duration ≠ 0)
    (h1 : (a.frame_duration : ℤ) ≤ t - a.previous_frame_time)
    (h2 : a.current_frame < a.num_frames - 1) :
    (a.increment_frame fs sw t).current_position =
      (if sw ≤ a.current_position.1 + fs.1 * 2 then (0, a.current_position.2 + fs.2)
       else (a.current_position.1 + fs.1, a.current_position.2)) := by
  unfold Animation.increment_frame
  rw [if_neg h0, if_neg (not_lt.mpr h1), if_neg (not_le.mpr h2)]
  split_ifs <;> rfl

/-- Witness for C6: with frame size (50, 37) and sheet width 200,
advancing from (150, 0) lands on (0, 37). -/
theorem row_wrap_witness :
    midRowAnim.frame_duration ≠ 0 ∧
    (midRowAnim.frame_duration : ℤ) ≤ 1000 - midRowAnim.previous_frame_time ∧
    midRowAnim.current_frame < midRowAnim.num_frames - 1 ∧
    (midRowAnim.increment_frame (50, 37) 200 1000).current_position = (0, 37) := by
  refine ⟨by decide, by decide, by decide, ?_⟩
  rw [row_wrap midRowAnim (50, 37) 200 1000 (by decide) (by decide) (by decide)]
  decide

/-- Claim C10: a fresh `Animation` has `previous_frame_time = 0`,
`current_frame = 0` and `current_position = starting_frame_position`, so
with `frame_duration > 0` the very first `increment_frame` call advances as
soon as the clock reading reaches `frame_duration` (no initial
full-duration wait after construction). -/
theorem new_animation_first_advance (p : ℕ × ℕ) (n d : ℕ) (fs : ℕ × ℕ) (sw : ℕ) (t : ℤ)
    (hd : 0 < d) (ht : (d : ℤ) ≤ t) :
    (Animation.new p n d).previous_frame_time = 0 ∧
    (Animation.new p n d).current_frame = 0 ∧
    (Animation.new p n d).current_position = p ∧
    ((Animation.new p n d).increment_frame fs sw t).previous_frame_time = t ∧
    (2 ≤ n → ((Animation.new p n d).increment_frame fs sw t).current_frame = 1) := by
  have hd0 : ¬(Animation.new p n d).frame_duration = 0 := by
    simp only [Animation.new]
    omega
  have helapsed : ¬(t - (Animation.new p n d).previous_frame_time < ((Animation.new p n d).frame_duration : ℤ)) := by
    simp only [Animation.new, sub_zero, not_lt]
    exact ht
  refine ⟨rfl, rfl, rfl, ?_, ?_⟩
  · unfold Animation.increment_frame
    rw [if_neg hd0, if_neg helapsed]
    split_ifs <;> rfl
  · intro hn
    have hlast : ¬((Animation.new p n d).num_frames - 1 ≤ (Animation.new p n d).current_frame) := by
      simp only [Animation.new]
      omega
    unfold Animation.increment_frame
    rw [if_neg hd0, if_neg helapsed, if_neg hlast]
    split_ifs <;> rfl

/-- Witness for C10: the 200 ms player idle clip advances on its very
first poll at clock reading 1700000000000 ms. -/
theorem new_animation_first_advance_witness :
    0 < 200 ∧ (200 : ℤ) ≤ 1700000000000 ∧
    ((Animation.new (0, 0) 4 200).increment_frame (50, 37) 200 1700000000000).previous_frame_time =
      1700000000000 ∧
    ((Animation.new (0, 0) 4 200).increment_frame (50, 37) 200 1700000000000).current_frame = 1 := by
  obtain ⟨-, -, -, h4, h5⟩ :=
    new_animation_first_advance (0, 0) 4 200 (50, 37) 200 1700000000000 (by decide) (by decide)
  exact ⟨by decide, by decide, h4, h5 (by decide)⟩

/-! ## Images, sprite sheets, sprites, world (main.rs lines 17-41, 60-111, 156-165) -/

/-- One RGBA pixel, channels as bytes. -/
structure Rgba where
  r : ℕ
  g : ℕ
  b : ℕ
  a : ℕ
deriving DecidableEq, Repr

/-- A decoded image (`image::DynamicImage`): dimensions plus per-pixel
random access.  `get_pixel` out of bounds panics in the `image` crate,
modelled by `none`. -/
structure Image where
  width : ℕ
  height : ℕ
  pix : ℕ → ℕ → Rgba

/-- Rust `GenericImageView::get_pixel`. -/
def Image.get_pixel (img : Image) (x y : ℕ) : Option Rgba :=
  if x < img.width ∧ y < img.height then some (img.pix x y) else none

/-- Rust `struct SpriteSheet` (main.rs lines 35-41). -/
structure SpriteSheet where
  texture : Image
  frame_size : ℕ × ℕ
  animations : List Animation
  current_animation : ℕ
  sheet_dimensions : ℕ × ℕ

/-- Rust `SpriteSheet::new` (main.rs lines 101-111). -/
def SpriteSheet.new (texture : Image) (animations : List Animation) (frame_size : ℕ × ℕ) :
    SpriteSheet where
  texture := texture
  frame_size := frame_size
  animations := animations
  current_animation := 0
  sheet_dimensions := (texture.width, texture.height)

/-- Rust `struct Sprite` (main.rs lines 26-32).  `position`/`velocity` are
`(f32, f32)`, modelled as exact rationals; the Rust tuple fields `.0`/`.1`
are `.1`/`.2` here. -/
structure Sprite where
  size : ℕ × ℕ
  facing_left : Bool
  position : ℚ × ℚ
  velocity : ℚ × ℚ
  sprite_sheet : SpriteSheet

/-- Rust `Sprite::new` (main.rs lines 61-72). -/
def Sprite.new (sprite_sheet : SpriteSheet) : Sprite where
  size := sprite_sheet.frame_size
  facing_left := false
  position := (0, 0)
  velocity := (0, 0)
  sprite_sheet := sprite_sheet

/-- Rust `Sprite::collision_y` (main.rs lines 74-79), the floor-collision test.
The source compares `self.position.1 as u16 + self.size.0` — that is, it
adds the sprite's WIDTH (`size.0`, here `size.1`), not its height —
against `WORLD_HEIGHT`. -/
def Sprite.collision_y (s : Sprite) : Bool :=
  decide (WORLD_HEIGHT ≤ floatToU16 s.position.2 + s.size.1)

/-- The sheet-level effect of `Sprite::run_animation` (main.rs lines
81-87): advance the currently selected animation in place, using the
sheet's frame size and sheet width; an out-of-range `current_animation`
index panics (`none`). -/
def SpriteSheet.advance (sh : SpriteSheet) (t : ℤ) : Option SpriteSheet :=
  match sh.animations[sh.current_animation]? with
  | none => none
  | some a =>
    let a2 := a.increment_frame sh.frame_size sh.sheet_dimensions.1 t
    some { sh with animations := sh.animations.set sh.current_animation a2 }

/-- Rust `Sprite::run_animation` (main.rs lines 81-87). -/
def Sprite.run_animation (s : Sprite) (t : ℤ) : Option Sprite :=
  (s.sprite_sheet.advance t).map (fun sh => { s with sprite_sheet := sh })

/-- Rust `Sprite::get_sheet_offset` (main.rs lines 89-92). -/
def Sprite.get_sheet_offset (s : Sprite) : Option (ℕ × ℕ) :=
  (s.sprite_sheet.animations[s.sprite_sheet.current_animation]?).map
    (fun a => a.current_position)

/-- Rust `Sprite::get_sprite_sheet` (main.rs lines 94-97). -/
def Sprite.get_sprite_sheet (s : Sprite) : Image :=
  s.sprite_sheet.texture

/-- Rust `struct World` (main.rs lines 17-22). -/
structure World where
  right_held : Bool
  left_held : Bool
  background_image : Image
  sprites : List Sprite

/-! ## `World::update_movement` (main.rs lines 195-209) -/

/-- Lines 196-198: accelerate right while the speed cap allows. -/
def vAfterRight (right_held : Bool) (v : ℚ) : ℚ :=
  if right_held ∧ ratAbs v < 4.75 then v + 0.3 else v

/-- Lines 200-202: accelerate left; note the cap re-reads the velocity
already modified by the right-key branch. -/
def vAfterLeft (left_held : Bool) (v : ℚ) : ℚ :=
  if left_held ∧ ratAbs v < 4.75 then v - 0.3 else v

/-- Lines 204-208: round `velocity.x` to 3 decimal places, then snap to 0
inside the dead-zone `|v| < 0.3`. -/
def roundSnap (v : ℚ) : ℚ :=
  if ratAbs (rustRound (v * 1000) / 1000) < 0.3 then 0 else rustRound (v * 1000) / 1000

/-- The full `update_movement` effect on `velocity.x` of sprite 0. -/
def movementVelocity (right_held left_held : Bool) (v : ℚ) : ℚ :=
  roundSnap (vAfterLeft left_held (vAfterRight right_held v))

/-- Rust `update_movement`'s effect on sprite 0. -/
def movementStep (right_held left_held : Bool) (s : Sprite) : Sprite :=
  { s with velocity := (movementVelocity right_held left_held s.velocity.1, s.velocity.2) }

/-- Rust `World::update_movement`; indexing `sprites[0]` of an empty vector
panics (`none`). -/
def World.update_movement (w : World) : Option World :=
  match w.sprites with
  | [] => none
  | s0 :: rest => some { w with sprites := movementStep w.right_held w.left_held s0 :: rest }

/-! ## `World::update_physics` (main.rs lines 212-241) -/

/-- Lines 214-218: friction magnitude, chosen from `collision_y` evaluated
on the PRE-update position. -/
def frictionX (s : Sprite) : ℚ := if s.collision_y then 0.1 else 0.01

/-- Line 221: new x position before rounding. -/
def newPosX (s : Sprite) : ℚ := s.position.1 + s.velocity.1 / 5

/-- Line 222: new y position. -/
def newPosY (s : Sprite) : ℚ := s.position.2 + s.velocity.2 / 5

/-- Line 225: the horizontal-bounds test on the NEW position. -/
def atWallX (s : Sprite) : Bool :=
  decide (floatToI16 (newPosX s) ≤ 0) ||
    decide ((WORLD_WIDTH : ℕ) < floatToU16 (newPosX s) + s.size.1)

/-- Lines 225-231: `velocity.x` after the wall stop or friction. -/
def vxAfterFriction (s : Sprite) : ℚ :=
  if atWallX s then 0
  else if 0 < s.velocity.1 then s.velocity.1 - frictionX s
  else if s.velocity.1 < 0 then s.velocity.1 + frictionX s
  else s.velocity.1

/-- Line 233: `position.x` rounded to 2 decimal places. -/
def posXRounded (s : Sprite) : ℚ := rustRound (newPosX s * 100) / 100

/-- Line 235 guard: bottom edge (using `size.1`, the height) above the
floor, on the post-move y position. -/
def airborneAfterMove (s : Sprite) : Bool :=
  decide (floatToU16 (newPosY s) + s.size.2 < WORLD_HEIGHT)

/-- Rust `update_physics`'s effect on sprite 0 (lines 213-240).  The
`collision_y` call of line 237 acts on the already-moved sprite. -/
def physicsStep (s : Sprite) : Sprite :=
  if airborneAfterMove s ∧ s.velocity.2 < 5 then
    { s with position := (posXRounded s, newPosY s)
             velocity := (vxAfterFriction s, s.velocity.2 + 0.1) }
  else if Sprite.collision_y { s with position := (posXRounded s, newPosY s) } then
    { s with position := (posXRounded s, (WORLD_HEIGHT : ℚ) - (s.size.2 : ℚ))
             velocity := (vxAfterFriction s, 0) }
  else
    { s with position := (posXRounded s, newPosY s)
             velocity := (vxAfterFriction s, s.velocity.2) }

/-- Rust `World::update_physics`. -/
def World.update_physics (w : World) : Option World :=
  match w.sprites with
  | [] => none
  | s0 :: rest => some { w with sprites := physicsStep s0 :: rest }

/-- Rust `main`'s per-cycle state update (lines 401-402): movement, then
physics. -/
def World.tick (w : World) : Option World :=
  w.update_movement.bind World.update_physics

/-! ## Concrete sprites for witnesses -/

/-- A 200x200 all-transparent texture. -/
def testImage : Image where
  width := 200
  height := 200
  pix := fun _ _ => ⟨0, 0, 0, 0⟩

/-- The player sheet: two clips, 50x37 frames (main.rs lines 336-339). -/
def playerSheet : SpriteSheet :=
  SpriteSheet.new testImage [Animation.new (0, 0) 4 200, Animation.new (0, 74) 4 100] (50, 37)

/-- A player-sized sprite at a given position and velocity. -/
def playerAt (pos vel : ℚ × ℚ) : Sprite where
  size := (50, 37)
  facing_left := false
  position := pos
  velocity := vel
  sprite_sheet := playerSheet

/-! ## Claim C1 -/

/-- Claim C1 (code bug): `collision_y` adds the sprite WIDTH (`size.0`),
not the height, to the truncated y position.  For the 50x37 player at
`y = 100` the code returns `true` (100 + 50 ≥ 144) although the claimed
test `trunc(y) + height ≥ 144` is false (100 + 37 = 137 < 144). -/
theorem collision_floor_uses_width :
    (playerAt (0, 100) (0, 0)).collision_y = true ∧
    floatToU16 (playerAt (0, 100) (0, 0)).position.2 +
      (playerAt (0, 100) (0, 0)).size.2 < WORLD_HEIGHT := by
  have h100 : floatToU16 ((100 : ℚ)) = 100 := by
    have ht : ratTrunc (100 : ℚ) = 100 := by norm_num [ratTrunc]
    rw [floatToU16, ht]
    decide
  constructor
  · simp only [Sprite.collision_y, playerAt, h100, decide_eq_true_eq]
    norm_num [WORLD_HEIGHT]
  · simp only [playerAt, h100]
    norm_num [WORLD_HEIGHT]

/-! ## Claim C8 -/

/-- Right-key acceleration under the speed cap. -/
theorem vAfterRight_true (v : ℚ) (h : ratAbs v < 4.75) : vAfterRight true v = v + 0.3 :=
  if_pos ⟨rfl, h⟩

/-- No right key: no change. -/
theorem vAfterRight_false (v : ℚ) : vAfterRight false v = v :=
  if_neg (by simp)

/-- Left-key acceleration under the speed cap. -/
theorem vAfterLeft_true (v : ℚ) (h : ratAbs v < 4.75) : vAfterLeft true v = v - 0.3 :=
  if_pos ⟨rfl, h⟩

/-- No left key: no change. -/
theorem vAfterLeft_false (v : ℚ) : vAfterLeft false v = v :=
  if_neg (by simp)

/-- Claim C8: while `right_held` (resp. `left_held`) and `|velocity.x| <
4.75`, the velocity gains +0.3 (resp. −0.3) that tick, is then rounded to
3 decimal places, and is snapped to exactly 0 whenever the rounded value
has `|v| < 0.3`; in particular `velocity.x = 0.25` with no keys held
becomes exactly 0 after one tick. -/
theorem horizontal_control (s : Sprite) (r l : Bool) :
    (r = true → l = false → ratAbs s.velocity.1 < 4.75 →
      (movementStep r l s).velocity.1 = roundSnap (s.velocity.1 + 0.3)) ∧
    (l = true → r = false → ratAbs s.velocity.1 < 4.75 →
      (movementStep r l s).velocity.1 = roundSnap (s.velocity.1 - 0.3)) ∧
    (r = false → l = false → s.velocity.1 = 0.25 →
      (movementStep r l s).velocity.1 = 0) := by
  refine ⟨?_, ?_, ?_⟩
  · intro hr hl hv
    subst hr; subst hl
    show roundSnap (vAfterLeft false (vAfterRight true s.velocity.1)) =
      roundSnap (s.velocity.1 + 0.3)
    rw [vAfterRight_true _ hv, vAfterLeft_false]
  · intro hl hr hv
    subst hr; subst hl
    show roundSnap (vAfterLeft true (vAfterRight false s.velocity.1)) =
      roundSnap (s.velocity.1 - 0.3)
    rw [vAfterRight_false, vAfterLeft_true _ hv]
  · intro hr hl hv
    subst hr; subst hl
    show roundSnap (vAfterLeft false (vAfterRight false s.velocity.1)) = 0
    rw [vAfterRight_false, vAfterLeft_false, hv]
    norm_num [roundSnap, rustRound, ratAbs]

/-- Witness for C8: a still 0.25-velocity sprite snaps to 0; a 0.25
velocity with the right key held becomes the rounded 0.55. -/
theorem horizontal_control_witness :
    (playerAt (0, 0) (0.25, 0)).velocity.1 = 0.25 ∧
    (movementStep false false (playerAt (0, 0) (0.25, 0))).velocity.1 = 0 ∧
    ratAbs (playerAt (0, 0) (0.25, 0)).velocity.1 < 4.75 ∧
    (movementStep true false (playerAt (0, 0) (0.25, 0))).velocity.1 =
      roundSnap ((playerAt (0, 0) (0.25, 0)).velocity.1 + 0.3) := by
  have habs : ratAbs (playerAt (0, 0) (0.25, 0)).velocity.1 < 4.75 := by
    norm_num [playerAt, ratAbs]
  exact ⟨rfl, (horizontal_control _ false false).2.2 rfl rfl rfl, habs,
    (horizontal_control _ true false).1 rfl rfl habs⟩

/-! ## Claim C4 -/

/-- Every branch of `update_physics` writes the same `velocity.x`. -/
theorem physicsStep_velocity_x (s : Sprite) :
    (physicsStep s).velocity.1 = vxAfterFriction s := by
  unfold physicsStep
  split_ifs <;> rfl

/-- Rust `update_movement` leaves `velocity.x` either exactly 0 or with
magnitude at least 0.3 (the dead-zone). -/
theorem roundSnap_zero_or_ge (v : ℚ) :
    roundSnap v = 0 ∨ (0.3 : ℚ) ≤ ratAbs (roundSnap v) := by
  unfold roundSnap
  split_ifs with h
  · exact Or.inl rfl
  · exact Or.inr (not_lt.mp h)

/-- The friction magnitude is at most 0.1. -/
theorem frictionX_le (s : Sprite) : frictionX s ≤ 0.1 ∧ 0 < frictionX s := by
  unfold frictionX
  split_ifs <;> norm_num

/-- Claim C4: away from both horizontal walls, `update_physics`
decelerates `velocity.x` toward 0 by the friction magnitude — 0.01, or
0.1 when `collision_y` holds on the pre-update position — and within a
tick (movement update, then physics update) this never flips the sign of
`velocity.x`. -/
theorem friction_decelerates (s s' : Sprite) (r l : Bool)
    (hs' : s' = movementStep r l s)
    (hwall : atWallX s' = false) :
    (physicsStep s').velocity.1 =
      (if 0 < s'.velocity.1 then s'.velocity.1 - frictionX s'
       else if s'.velocity.1 < 0 then s'.velocity.1 + frictionX s'
       else s'.velocity.1) ∧
    frictionX s' = (if s'.collision_y then 0.1 else 0.01) ∧
    (0 < s'.velocity.1 → 0 < (physicsStep s').velocity.1) ∧
    (s'.velocity.1 < 0 → (physicsStep s').velocity.1 < 0) := by
  have hfrict : (physicsStep s').velocity.1 =
      (if 0 < s'.velocity.1 then s'.velocity.1 - frictionX s'
       else if s'.velocity.1 < 0 then s'.velocity.1 + frictionX s'
       else s'.velocity.1) := by
    rw [physicsStep_velocity_x, vxAfterFriction, if_neg (by simp [hwall])]
  have hdead : s'.velocity.1 = 0 ∨ (0.3 : ℚ) ≤ ratAbs s'.velocity.1 := by
    have : s'.velocity.1 = roundSnap (vAfterLeft l (vAfterRight r s.velocity.1)) := by
      rw [hs']
      rfl
    rw [this]
    exact roundSnap_zero_or_ge _
  obtain ⟨hμle, hμpos⟩ := frictionX_le s'
  refine ⟨hfrict, rfl, ?_, ?_⟩
  · intro hpos
    have h3 : (0.3 : ℚ) ≤ s'.velocity.1 := by
      rcases hdead with h | h
      · exact absurd hpos (by rw [h]; exact lt_irrefl 0)
      · rwa [ratAbs, if_neg (not_lt.mpr hpos.le)] at h
    rw [hfrict, if_pos hpos]
    linarith
  · intro hneg
    have h3 : s'.velocity.1 ≤ -(0.3 : ℚ) := by
      rcases hdead with h | h
      · exact absurd hneg (by rw [h]; exact lt_irrefl 0)
      · rw [ratAbs, if_pos hneg] at h
        linarith
    rw [hfrict, if_neg (not_lt.mpr (by linarith)), if_pos hneg]
    linarith

/-- Witness for C4: the player at (100, 100) moving right at velocity 1
is away from both walls; one physics step keeps `velocity.x` positive. -/
theorem friction_decelerates_witness :
    atWallX (movementStep false false (playerAt (100, 100) (1, 0))) = false ∧
    0 < (physicsStep (movementStep false false (playerAt (100, 100) (1, 0)))).velocity.1 := by
  have hv : (movementStep false false (playerAt (100, 100) (1, 0))).velocity.1 = 1 := by
    show roundSnap (vAfterLeft false (vAfterRight false 1)) = 1
    rw [vAfterRight_false, vAfterLeft_false]
    norm_num [roundSnap, rustRound, ratAbs]
  have hwall : atWallX (movementStep false false (playerAt (100, 100) (1, 0))) = false := by
    have hpos : (movementStep false false (playerAt (100, 100) (1, 0))).position = (100, 100) := rfl
    have hsize : (movementStep false false (playerAt (100, 100) (1, 0))).size = (50, 37) := rfl
    have hx : newPosX (movementStep false false (playerAt (100, 100) (1, 0))) = 501/5 := by
      rw [newPosX, hpos, hv]
      norm_num
    have ht : ratTrunc ((501 : ℚ)/5) = 100 := by norm_num [ratTrunc]
    rw [atWallX, hx, hsize, floatToI16, floatToU16, ht]
    decide
  exact ⟨hwall,
    (friction_decelerates _ _ false false rfl hwall).2.2.1 (by rw [hv]; norm_num)⟩

/-! ## Claim C5 -/

/-- The binary32 value nearest to 0.1 (`13421773 * 2^-27`), in grid
units: the gravity increment of main.rs line 213/236. -/
def GRAV31 : ℤ := 214748368

/-- Rust `f32 as u16` of a nonnegative grid value: truncate, saturate. -/
def u16OfGrid (k : ℤ) : ℕ := min 65535 (k / fScale).toNat

/-- One `update_physics` tick of the y components in bit-exact binary32,
for the program's own no-input run: the player spawns at position (0, 0)
with velocity (0, 0) (main.rs lines 69-70, 340), and with no keys held
`update_movement` keeps `velocity.x = 0` while the wall test keeps
`position.x = 0`, so the y components evolve autonomously.  Line 222:
`position.y += velocity.y / 5.0`; line 235 guard: truncated new y plus the
height 37 below `WORLD_HEIGHT`, and `velocity.y < 5.0`; line 236: add the
binary32 0.1; line 237: `collision_y` on the moved sprite (adding the
WIDTH 50 — the C1 bug); line 238-239: clamp to `144 - 37 = 107` (exact in
binary32) and zero the velocity. -/
def gravTickF32 (st : ℤ × ℤ) : ℤ × ℤ :=
  if u16OfGrid (fAdd st.1 (fDivRnd st.2 5)) + 37 < WORLD_HEIGHT ∧ st.2 < 5 * fScale then
    (fAdd st.1 (fDivRnd st.2 5), fAdd st.2 GRAV31)
  else if WORLD_HEIGHT ≤ u16OfGrid (fAdd st.1 (fDivRnd st.2 5)) + 50 then (107 * fScale, 0)
  else (fAdd st.1 (fDivRnd st.2 5), st.2)

/-- `n` physics ticks applied to a y state. -/
def gravIterAux : ℕ → ℤ × ℤ → ℤ × ℤ
  | 0, st => st
  | n + 1, st => gravIterAux n (gravTickF32 st)

/-- The y state of the player after `n` no-input physics ticks from
spawn. -/
def gravIterF32 (n : ℕ) : ℤ × ℤ := gravIterAux n (0, 0)

/-- The largest `velocity.y` the run ever attains:
`10952161280 * 2^-31 = 5.09999752...`, the binary32 sum of 4.9999976 and
0.1. -/
def terminalF32 : ℤ := 10952161280

/-- Unfolding lemma: zero ticks. -/
theorem gravIterAux_zero (st : ℤ × ℤ) : gravIterAux 0 st = st := rfl

/-- Unfolding lemma: one more tick. -/
theorem gravIterAux_succ (n : ℕ) (st : ℤ × ℤ) :
    gravIterAux (n + 1) st = gravIterAux n (gravTickF32 st) := rfl

/-- Tick runs compose. -/
theorem gravIterAux_add (m n : ℕ) (st : ℤ × ℤ) :
    gravIterAux (m + n) st = gravIterAux n (gravIterAux m st) := by
  induction m generalizing st with
  | zero => rw [Nat.zero_add, gravIterAux_zero]
  | succ m ih =>
    rw [show m + 1 + n = (m + n) + 1 from by omega, gravIterAux_succ, gravIterAux_succ, ih]

/-- Resting on the floor with zero velocity is a fixed point. -/
theorem gravTickF32_fix : gravTickF32 (107 * fScale, 0) = (107 * fScale, 0) := by decide

/-- The floor rest state never changes again. -/
theorem gravIterAux_fix (m : ℕ) : gravIterAux m (107 * fScale, 0) = (107 * fScale, 0) := by
  induction m with
  | zero => rfl
  | succ m ih => rw [gravIterAux_succ, gravTickF32_fix]; exact ih

set_option maxRecDepth 8000 in
/-- Ticks 0-15 of the no-input run. -/
theorem gravChunk1 : gravIterAux 15 (0, 0) = (4509715968, 3221225984) := by decide

set_option maxRecDepth 8000 in
/-- Ticks 15-30. -/
theorem gravChunk2 : gravIterAux 15 (4509715968, 3221225984) = (18683109376, 6442449408) := by
  decide

set_option maxRecDepth 8000 in
/-- Ticks 30-45. -/
theorem gravChunk3 : gravIterAux 15 (18683109376, 6442449408) = (42520162304, 9663672320) := by
  decide

set_option maxRecDepth 8000 in
/-- Ticks 45-60; the velocity saturates at `terminalF32` in this span. -/
theorem gravChunk4 : gravIterAux 15 (42520162304, 9663672320) = (74474725376, 10952161280) := by
  decide

set_option maxRecDepth 8000 in
/-- Ticks 60-75. -/
theorem gravChunk5 : gravIterAux 15 (74474725376, 10952161280) = (107331239936, 10952161280) := by
  decide

set_option maxRecDepth 8000 in
/-- Ticks 75-90. -/
theorem gravChunk6 : gravIterAux 15 (107331239936, 10952161280) = (140187746304, 10952161280) := by
  decide

set_option maxRecDepth 8000 in
/-- Ticks 90-105. -/
theorem gravChunk7 : gravIterAux 15 (140187746304, 10952161280) = (173044137984, 10952161280) := by
  decide

set_option maxRecDepth 8000 in
/-- Ticks 105-119: the body falls below `y = 94` where the (buggy) floor
test fires and clamps it to rest. -/
theorem gravChunk8 : gravIterAux 14 (173044137984, 10952161280) = (107 * fScale, 0) := by decide

set_option maxRecDepth 8000 in
/-- Velocity bound over ticks 0-14. -/
theorem gravBall0 : ∀ k < 15, (gravIterAux k ((0 : ℤ), (0 : ℤ))).2 ≤ terminalF32 := by decide

set_option maxRecDepth 8000 in
/-- Velocity bound over ticks 15-29. -/
theorem gravBall1 : ∀ k < 15,
    (gravIterAux k ((4509715968 : ℤ), (3221225984 : ℤ))).2 ≤ terminalF32 := by decide

set_option maxRecDepth 8000 in
/-- Velocity bound over ticks 30-44. -/
theorem gravBall2 : ∀ k < 15,
    (gravIterAux k ((18683109376 : ℤ), (6442449408 : ℤ))).2 ≤ terminalF32 := by decide

set_option maxRecDepth 8000 in
/-- Velocity bound over ticks 45-59. -/
theorem gravBall3 : ∀ k < 15,
    (gravIterAux k ((42520162304 : ℤ), (9663672320 : ℤ))).2 ≤ terminalF32 := by decide

set_option maxRecDepth 8000 in
/-- Velocity bound over ticks 60-74. -/
theorem gravBall4 : ∀ k < 15,
    (gravIterAux k ((74474725376 : ℤ), (10952161280 : ℤ))).2 ≤ terminalF32 := by decide

set_option maxRecDepth 8000 in
/-- Velocity bound over ticks 75-89. -/
theorem gravBall5 : ∀ k < 15,
    (gravIterAux k ((107331239936 : ℤ), (10952161280 : ℤ))).2 ≤ terminalF32 := by decide

set_option maxRecDepth 8000 in
/-- Velocity bound over ticks 90-104. -/
theorem gravBall6 : ∀ k < 15,
    (gravIterAux k ((140187746304 : ℤ), (10952161280 : ℤ))).2 ≤ terminalF32 := by decide

set_option maxRecDepth 8000 in
/-- Velocity bound over ticks 105-118. -/
theorem gravBall7 : ∀ k < 14,
    (gravIterAux k ((173044137984 : ℤ), (10952161280 : ℤ))).2 ≤ terminalF32 := by decide

/-- Over the whole infinite no-input run, `velocity.y` never exceeds
`terminalF32`. -/
theorem gravVBound : ∀ n : ℕ, (gravIterAux n (0, 0)).2 ≤ terminalF32 := by
  intro n
  by_cases h1 : n < 15
  · exact gravBall0 n h1
  obtain ⟨k, rfl⟩ := Nat.exists_eq_add_of_le (not_lt.mp h1)
  rw [gravIterAux_add 15 k, gravChunk1]
  by_cases h2 : k < 15
  · exact gravBall1 k h2
  obtain ⟨k, rfl⟩ := Nat.exists_eq_add_of_le (not_lt.mp h2)
  rw [gravIterAux_add 15 k, gravChunk2]
  by_cases h3 : k < 15
  · exact gravBall2 k h3
  obtain ⟨k, rfl⟩ := Nat.exists_eq_add_of_le (not_lt.mp h3)
  rw [gravIterAux_add 15 k, gravChunk3]
  by_cases h4 : k < 15
  · exact gravBall3 k h4
  obtain ⟨k, rfl⟩ := Nat.exists_eq_add_of_le (not_lt.mp h4)
  rw [gravIterAux_add 15 k, gravChunk4]
  by_cases h5 : k < 15
  · exact gravBall4 k h5
  obtain ⟨k, rfl⟩ := Nat.exists_eq_add_of_le (not_lt.mp h5)
  rw [gravIterAux_add 15 k, gravChunk5]
  by_cases h6 : k < 15
  · exact gravBall5 k h6
  obtain ⟨k, rfl⟩ := Nat.exists_eq_add_of_le (not_lt.mp h6)
  rw [gravIterAux_add 15 k, gravChunk6]
  by_cases h7 : k < 15
  · exact gravBall6 k h7
  obtain ⟨k, rfl⟩ := Nat.exists_eq_add_of_le (not_lt.mp h7)
  rw [gravIterAux_add 15 k, gravChunk7]
  by_cases h8 : k < 14
  · exact gravBall7 k h8
  obtain ⟨k, rfl⟩ := Nat.exists_eq_add_of_le (not_lt.mp h8)
  rw [gravIterAux_add 14 k, gravChunk8, gravIterAux_fix k]
  decide

set_option maxRecDepth 8000 in
/-- Counterexample for C5 as stated: in bit-exact binary32, the no-input
run from spawn has `velocity.y` below 5.0 at tick 50
(`10737413120 * 2^-31 = 4.99999762...`) and above 5.0 at tick 51
(`10952161280 * 2^-31 = 5.09999752...`), while the body is still airborne
(the truncated y position plus the height 37 is far below 144) — so one
gravity tick pushes `velocity.y` past 5.0 and it stays there. -/
theorem terminal_velocity_cex :
    (gravIterF32 50).2 < 5 * fScale ∧
    5 * fScale < (gravIterF32 51).2 ∧
    u16OfGrid (gravIterF32 51).1 + 37 < WORLD_HEIGHT := by
  have h45 : gravIterAux 45 (0, 0) = (42520162304, 9663672320) := by
    rw [show (45 : ℕ) = 15 + (15 + 15) from by norm_num, gravIterAux_add, gravChunk1,
      gravIterAux_add, gravChunk2, gravChunk3]
  have h50 : gravIterF32 50 = (52613332992, 10737413120) := by
    show gravIterAux 50 (0, 0) = _
    rw [show (50 : ℕ) = 45 + 5 from by norm_num, gravIterAux_add, h45]
    decide
  have h51 : gravIterF32 51 = (54760816640, 10952161280) := by
    show gravIterAux 51 (0, 0) = _
    rw [show (51 : ℕ) = 45 + 6 from by norm_num, gravIterAux_add, h45]
    decide
  rw [h50, h51]
  exact ⟨by decide, by decide, by decide⟩

/-- Claim C5 (amended): gravity is added only while `velocity.y < 5.0`
(at or above 5.0 a tick leaves the velocity unchanged or clamps it to 0),
so `velocity.y` overshoots 5.0 by at most one binary32 increment: over
the whole no-input run it never exceeds
`terminalF32 * 2^-31 = 5.09999752... < 5.1`. -/
theorem terminal_velocity_amended :
    (∀ st : ℤ × ℤ, 5 * fScale ≤ st.2 →
      (gravTickF32 st).2 = st.2 ∨ (gravTickF32 st).2 = 0) ∧
    (∀ n : ℕ, (gravIterF32 n).2 ≤ terminalF32) ∧
    ((terminalF32 : ℚ) / 2 ^ 31 < 5.1) := by
  refine ⟨?_, fun n => gravVBound n, by norm_num [terminalF32]⟩
  intro st h
  unfold gravTickF32
  rw [if_neg (fun hc => absurd hc.2 (not_lt.mpr h))]
  split_ifs
  · exact Or.inr rfl
  · exact Or.inl rfl

/-- Witness for the amended C5: at the attained terminal state
(tick 51), a further tick leaves `velocity.y` unchanged or clamps it. -/
theorem terminal_velocity_amended_witness :
    5 * fScale ≤ ((54760816640 : ℤ), (10952161280 : ℤ)).2 ∧
    ((gravTickF32 (54760816640, 10952161280)).2 = ((54760816640 : ℤ), (10952161280 : ℤ)).2 ∨
      (gravTickF32 (54760816640, 10952161280)).2 = 0) :=
  ⟨by decide, terminal_velocity_amended.1 (54760816640, 10952161280) (by decide)⟩

/-! ## Alpha blending (main.rs lines 288-303) -/

/-- Output buffer size in bytes, `(WORLD_WIDTH * WORLD_HEIGHT) * 4`
(main.rs line 282). -/
def N4 : ℕ := WORLD_WIDTH * WORLD_HEIGHT * 4

/-- The binary32 value of `alpha as f32 / 255.0` (line 296's `a`): the
exact quotient of the grid-scaled channel by 255, rounded to nearest-even.
Nonzero alphas give values in `[1/255, 1]`, all at least `2^-8`, so the
`2^-31` grid (one binary32 ulp at `2^-8`) represents every rounded result
exactly. -/
def fDiv255 (a : ℕ) : ℤ := fDivRnd ((a : ℤ) * fScale) 255

/-- The binary32 value of `1.0 - a / 255.0` (line 298's factor on the
destination): the exact difference rounded once; it again lies on the
grid. -/
def fInvA (a : ℕ) : ℤ := fRnd (fScale - fDiv255 a)

/-- Lines 297-301: one blended colour channel in bit-exact binary32.
`output[c] += (dst * (1.0 - a/255.0)) as u8 + (src * (a/255.0)) as u8`
with `output[c]` starting at 0; each product rounds once (the channel
value is an exact small integer, the factor is on the grid), each cast
truncates, and the `u8` addition is reduced mod 256 (release-mode wrap),
though the sum in fact never exceeds 255. -/
def blendChannel (dst src a : ℕ) : ℕ :=
  (min 255 (fRnd ((dst : ℤ) * fInvA a) / fScale).toNat +
    min 255 (fRnd ((src : ℤ) * fDiv255 a) / fScale).toNat) % 256

/-- Lines 297-303: blend a source sprite pixel over a destination pixel;
the output alpha is forced to 255. -/
def blendPixel (dst src : Rgba) : Rgba where
  r := blendChannel dst.r src.r src.a
  g := blendChannel dst.g src.g src.a
  b := blendChannel dst.b src.b src.a
  a := 255

/-- Counterexample for C2 as stated: the f32 pipeline disagrees with the
exact two-term floor formula.  At `dst = 51`, `src = 0`, `a = 65` the
exact destination term is `51 * 190 / 255 = 38` exactly, but the code's
binary32 product is `37.999996...`, which the `u8` cast truncates to 37.
And the spec's concrete example is wrong even under the exact formula:
the blend of (10, 20, 30) with (200, 100, 50, 128) has green channel 59
(`9 + 50`), not 60. -/
theorem blend_formula_cex :
    ((blendChannel 51 0 65 : ℤ) ≠
      ⌊(51 : ℚ) * (1 - (65 : ℚ) / 255)⌋ + ⌊(0 : ℚ) * ((65 : ℚ) / 255)⌋) ∧
    blendPixel ⟨10, 20, 30, 255⟩ ⟨200, 100, 50, 128⟩ ≠ ⟨104, 60, 39, 255⟩ := by
  constructor
  · have hc : blendChannel 51 0 65 = 37 := by decide
    have hf : ⌊(51 : ℚ) * (1 - (65 : ℚ) / 255)⌋ + ⌊(0 : ℚ) * ((65 : ℚ) / 255)⌋ = 38 := by
      norm_num
    rw [hc, hf]
    decide
  · decide

/-- Claim C2 (amended): each composited RGB channel is the sum of the two
truncated binary32 products `(dst * (1 - a/255)) as u8` and
`(src * (a/255)) as u8`, the output alpha is always 255, the spec's
example blends to (104, 59, 39, 255), and on that example every channel
agrees with the exact floor formula. -/
theorem blend_formula_f32 :
    (∀ dst src : Rgba, (blendPixel dst src).a = 255) ∧
    blendPixel ⟨10, 20, 30, 255⟩ ⟨200, 100, 50, 128⟩ = ⟨104, 59, 39, 255⟩ ∧
    ((blendChannel 10 200 128 : ℤ) =
      ⌊(10 : ℚ) * (1 - (128 : ℚ) / 255)⌋ + ⌊(200 : ℚ) * ((128 : ℚ) / 255)⌋) ∧
    ((blendChannel 20 100 128 : ℤ) =
      ⌊(20 : ℚ) * (1 - (128 : ℚ) / 255)⌋ + ⌊(100 : ℚ) * ((128 : ℚ) / 255)⌋) ∧
    ((blendChannel 30 50 128 : ℤ) =
      ⌊(30 : ℚ) * (1 - (128 : ℚ) / 255)⌋ + ⌊(50 : ℚ) * ((128 : ℚ) / 255)⌋) := by
  refine ⟨fun dst src => rfl, by decide, ?_, ?_, ?_⟩
  · have hc : blendChannel 10 200 128 = 104 := by decide
    have hf : ⌊(10 : ℚ) * (1 - (128 : ℚ) / 255)⌋ + ⌊(200 : ℚ) * ((128 : ℚ) / 255)⌋ = 104 := by
      norm_num
    rw [hf]
    omega
  · have hc : blendChannel 20 100 128 = 59 := by decide
    have hf : ⌊(20 : ℚ) * (1 - (128 : ℚ) / 255)⌋ + ⌊(100 : ℚ) * ((128 : ℚ) / 255)⌋ = 59 := by
      norm_num
    rw [hf]
    omega
  · have hc : blendChannel 30 50 128 = 39 := by decide
    have hf : ⌊(30 : ℚ) * (1 - (128 : ℚ) / 255)⌋ + ⌊(50 : ℚ) * ((128 : ℚ) / 255)⌋ = 39 := by
      norm_num
    rw [hf]
    omega

/-! ## The frame buffer and `World::draw` (main.rs lines 251-311) -/

/-- The output buffer: a byte per index.  The `pixels` buffer handed to
`draw` has exactly `N4` bytes; indices at and above `N4` are not part of
the real buffer and are never read or written by the embedding (`none`
models the panic a Rust slice operation would raise there). -/
def Frame : Type := ℕ → ℕ

/-- Write one RGBA pixel at byte offset `j` (bytes `j..j+3`). -/
def writePixel (f : Frame) (j : ℕ) (p : Rgba) : Frame := fun idx =>
  if idx = j then p.r
  else if idx = j + 1 then p.g
  else if idx = j + 2 then p.b
  else if idx = j + 3 then p.a
  else f idx

/-- Read the RGBA pixel at byte offset `j` (the `world_pixel` slice). -/
def dstPixel (f : Frame) (j : ℕ) : Rgba :=
  ⟨f j, f (j + 1), f (j + 2), f (j + 3)⟩

/-- Line 273: `x = (z % size.0) as i16`. -/
def spriteLocalX (s : Sprite) (z : ℕ) : ℕ := z % s.size.1

/-- Line 274: `y = (z / size.0) as u16`. -/
def spriteLocalY (s : Sprite) (z : ℕ) : ℕ := z / s.size.1

/-- Line 276: `viewport_y = (y as i32 + position.1 as i32) * WORLD_WIDTH
as i32`, with `i32` wrap-around on each operation. -/
def viewportY (s : Sprite) (z : ℕ) : ℤ :=
  wrap32 (wrap32 ((spriteLocalY s z : ℤ) + floatToI32 s.position.2) * (WORLD_WIDTH : ℤ))

/-- Line 277: `viewport_x = x as i32 + position.0 as i32`. -/
def viewportX (s : Sprite) (z : ℕ) : ℤ :=
  wrap32 ((spriteLocalX s z : ℤ) + floatToI32 s.position.1)

/-- Line 279: `index = ((viewport_y + viewport_x) * 4) as usize`. -/
def spriteIndex (s : Sprite) (z : ℕ) : ℕ :=
  usizeOfI32 (wrap32 (wrap32 (viewportY s z + viewportX s z) * 4))

/-- Lines 282-286: the destination byte offset actually used — the
computed index when `index ≤ N4`, byte 0 otherwise. -/
def spriteDest (s : Sprite) (z : ℕ) : ℕ :=
  if spriteIndex s z ≤ N4 then spriteIndex s z else 0

/-- Lines 283-306 for one sprite pixel `z`, destination offset `j`:
take `frame[j..j+4]` (panic — `none` — if that slice overruns the `N4`-byte
buffer), sample the sheet at the local offset plus the animation frame
offset (panic if outside the texture), blend, and write back. -/
def spritePixelAt (s : Sprite) (off : ℕ × ℕ) (f : Frame) (z j : ℕ) : Option Frame :=
  if j + 4 ≤ N4 then
    match s.get_sprite_sheet.get_pixel (spriteLocalX s z + off.1) (spriteLocalY s z + off.2) with
    | none => none
    | some src => some (writePixel f j (blendPixel (dstPixel f j) src))
  else none

/-- One iteration of the per-pixel loop of lines 272-307. -/
def spritePixel (s : Sprite) (off : ℕ × ℕ) (f : Frame) (z : ℕ) : Option Frame :=
  spritePixelAt s off f z (spriteDest s z)

/-- The loop `for z in 0..(size.0 * size.1)`, starting at `z`, `k`
iterations remaining. -/
def spriteAux (s : Sprite) (off : ℕ × ℕ) : ℕ → ℕ → Frame → Option Frame
  | _, 0, f => some f
  | z, k + 1, f => (spritePixel s off f z).bind (fun f2 => spriteAux s off (z + 1) k f2)

/-- Lines 268-307 for one sprite: fetch the animation frame offset once,
then run the pixel loop. -/
def drawSprite (s : Sprite) (f : Frame) : Option Frame :=
  match s.get_sheet_offset with
  | none => none
  | some off => spriteAux s off 0 (s.size.1 * s.size.2) f

/-- The sprite pass, in sprite-list order. -/
def spritesPass : List Sprite → Frame → Option Frame
  | [], f => some f
  | s :: rest, f =>
    match drawSprite s f with
    | none => none
    | some f2 => spritesPass rest f2

/-- Lines 257-265: the background pass; chunk `i` (bytes `4i..4i+3`)
receives the background pixel at `(i % WORLD_WIDTH, i / WORLD_WIDTH)`. -/
def bgAux (bg : Image) : ℕ → ℕ → Frame → Option Frame
  | _, 0, f => some f
  | i, k + 1, f =>
    match bg.get_pixel (i % WORLD_WIDTH) (i / WORLD_WIDTH) with
    | none => none
    | some p => bgAux bg (i + 1) k (writePixel f (4 * i) p)

/-- The whole background pass over the `WORLD_WIDTH * WORLD_HEIGHT`
4-byte chunks of the buffer. -/
def bgPass (bg : Image) (f : Frame) : Option Frame :=
  bgAux bg 0 (WORLD_WIDTH * WORLD_HEIGHT) f

/-- Rust `World::update_sprite_animations` (main.rs lines 244-248) on the
sprite list. -/
def updateAnims (t : ℤ) : List Sprite → Option (List Sprite)
  | [] => some []
  | s :: rest =>
    match s.run_animation t with
    | none => none
    | some s2 =>
      match updateAnims t rest with
      | none => none
      | some rest2 => some (s2 :: rest2)

/-- Rust `World::update_sprite_animations` (main.rs lines 244-248). -/
def World.update_sprite_animations (w : World) (t : ℤ) : Option World :=
  match updateAnims t w.sprites with
  | none => none
  | some l => some { w with sprites := l }

/-- Rust `World::draw` (main.rs lines 251-311): advance every sprite's
animation, repaint the background, then composite the sprites; the result
pairs the mutated world with the filled buffer. -/
def World.draw (w : World) (t : ℤ) (f : Frame) : Option (World × Frame) :=
  (updateAnims t w.sprites).bind fun l2 =>
    (bgPass w.background_image f).bind fun f1 =>
      (spritesPass l2 f1).map fun f2 => ({ w with sprites := l2 }, f2)

/-! ## Claim C3 -/

/-- Bytes outside `j..j+3` are untouched by a pixel write. -/
theorem writePixel_out (f : Frame) (j : ℕ) (p : Rgba) (idx : ℕ)
    (h : idx < j ∨ j + 4 ≤ idx) : writePixel f j p idx = f idx := by
  unfold writePixel
  rw [if_neg (by omega), if_neg (by omega), if_neg (by omega), if_neg (by omega)]

/-- Claim C3 (amended): a sprite pixel whose computed byte index is
STRICTLY greater than `N4 = WORLD_WIDTH * WORLD_HEIGHT * 4` is redirected
to buffer bytes 0..4 rather than skipped, and such a write touches only
bytes 0..3.  (At a computed index of exactly `N4` the in-bounds test
passes and the slice `frame[N4..N4+4]` overruns the buffer instead —
see the counterexample.) -/
theorem oob_pixel_redirect (s : Sprite) (off : ℕ × ℕ) (f : Frame) (z : ℕ)
    (h : N4 < spriteIndex s z) :
    spritePixel s off f z = spritePixelAt s off f z 0 ∧
    (∀ g, spritePixel s off f z = some g → ∀ idx, 4 ≤ idx → g idx = f idx) := by
  have hdest : spriteDest s z = 0 := by
    rw [spriteDest, if_neg (not_le.mpr h)]
  constructor
  · rw [spritePixel, hdest]
  · intro g hg idx hidx
    rw [spritePixel, hdest, spritePixelAt] at hg
    rw [if_pos (by norm_num [N4, WORLD_WIDTH, WORLD_HEIGHT])] at hg
    cases hp : s.get_sprite_sheet.get_pixel (spriteLocalX s z + off.1) (spriteLocalY s z + off.2) with
    | none => rw [hp] at hg; cases hg
    | some src =>
      rw [hp] at hg
      injection hg with hg
      rw [← hg]
      exact writePixel_out f 0 _ idx (Or.inr (by omega))

/-- A player-sized sprite parked at `y = 200`, below the world: every one
of its pixels computes an out-of-buffer index. -/
def belowWorldSprite : Sprite := playerAt (0, 200) (0, 0)

/-- The all-zero frame buffer. -/
def zeroFrame : Frame := fun _ => 0

/-- Rust `f32 as i32` of the integer 200. -/
theorem floatToI32_200 : floatToI32 ((200 : ℚ)) = 200 := by
  norm_num [floatToI32, ratTrunc]

/-- Rust `f32 as i32` of the integer 0. -/
theorem floatToI32_0 : floatToI32 ((0 : ℚ)) = 0 := by
  norm_num [floatToI32, ratTrunc]

/-- Witness for C3: pixel 0 of the below-world sprite computes index
204800 > 147456 and is redirected to byte offset 0. -/
theorem oob_pixel_redirect_witness :
    N4 < spriteIndex belowWorldSprite 0 ∧
    spritePixel belowWorldSprite (0, 0) zeroFrame 0 =
      spritePixelAt belowWorldSprite (0, 0) zeroFrame 0 0 := by
  have hidx : spriteIndex belowWorldSprite 0 = 204800 := by
    simp only [spriteIndex, viewportY, viewportX, spriteLocalX, spriteLocalY,
      belowWorldSprite, playerAt, floatToI32_200, floatToI32_0]
    decide
  have h : N4 < spriteIndex belowWorldSprite 0 := by
    rw [hidx]
    norm_num [N4, WORLD_WIDTH, WORLD_HEIGHT]
  exact ⟨h, (oob_pixel_redirect belowWorldSprite (0, 0) zeroFrame 0 h).1⟩

/-- A player-sized sprite parked at `y = 144`: pixel 0 computes index
exactly `N4 = 147456`. -/
def boundarySprite : Sprite := playerAt (0, 144) (0, 0)

/-- Rust `f32 as i32` of the integer 144. -/
theorem floatToI32_144 : floatToI32 ((144 : ℚ)) = 144 := by
  norm_num [floatToI32, ratTrunc]

/-- Counterexample for C3 as stated: pixel 0 of a sprite at `y = 144`
computes byte index exactly `N4 = 147456` — outside the `N4`-byte buffer
(the last writable 4-byte slot starts at `N4 - 4`) — yet the code's
`index <= N4` test treats it as in bounds and slices
`frame[147456..147460]`, an out-of-range access (a panic, `none` here),
instead of redirecting the write to bytes 0..4. -/
theorem oob_boundary_cex :
    spriteIndex boundarySprite 0 = N4 ∧
    spritePixel boundarySprite (0, 0) zeroFrame 0 = none := by
  have hidx : spriteIndex boundarySprite 0 = N4 := by
    simp only [spriteIndex, viewportY, viewportX, spriteLocalX, spriteLocalY,
      boundarySprite, playerAt, floatToI32_144, floatToI32_0]
    decide
  refine ⟨hidx, ?_⟩
  have hdest : spriteDest boundarySprite 0 = N4 := by
    rw [spriteDest, hidx, if_pos le_rfl]
  rw [spritePixel, hdest, spritePixelAt,
    if_neg (by norm_num [N4, WORLD_WIDTH, WORLD_HEIGHT])]

/-! ## Claim C9: drawing twice under a frozen clock -/

/-- A second `increment_frame` at the same clock reading is a no-op: if
the first call advanced, it set `previous_frame_time` to the current
time, so zero elapsed time is below the (nonzero) duration. -/
theorem increment_frame_idem (a : Animation) (fs : ℕ × ℕ) (sw : ℕ) (t : ℤ) :
    (a.increment_frame fs sw t).increment_frame fs sw t = a.increment_frame fs sw t := by
  by_cases h0 : a.frame_duration = 0
  · have hnoop := increment_frame_noop a fs sw t (Or.inl h0)
    rw [hnoop]
    exact hnoop
  · by_cases h1 : t - a.previous_frame_time < (a.frame_duration : ℤ)
    · have hnoop := increment_frame_noop a fs sw t (Or.inr h1)
      rw [hnoop]
      exact hnoop
    · have hprev : (a.increment_frame fs sw t).previous_frame_time = t := by
        unfold Animation.increment_frame
        rw [if_neg h0, if_neg h1]
        split_ifs <;> rfl
      have hdur : (a.increment_frame fs sw t).frame_duration = a.frame_duration := by
        unfold Animation.increment_frame
        rw [if_neg h0, if_neg h1]
        split_ifs <;> rfl
      apply increment_frame_noop
      right
      rw [hprev, hdur]
      have := Nat.pos_of_ne_zero h0
      omega

/-- A second `SpriteSheet.advance` at the same clock reading returns the
advanced sheet unchanged. -/
theorem advance_idem (sh sh2 : SpriteSheet) (t : ℤ) (h : sh.advance t = some sh2) :
    sh2.advance t = some sh2 := by
  unfold SpriteSheet.advance at h
  cases hget : sh.animations[sh.current_animation]? with
  | none => rw [hget] at h; cases h
  | some a =>
    rw [hget] at h
    injection h with h
    subst h
    have hlen : sh.current_animation < sh.animations.length := by
      rcases List.getElem?_eq_some.mp hget with ⟨h1, -⟩
      exact h1
    have hget2 : (sh.animations.set sh.current_animation
        (a.increment_frame sh.frame_size sh.sheet_dimensions.1 t))[sh.current_animation]? =
        some (a.increment_frame sh.frame_size sh.sheet_dimensions.1 t) :=
      List.getElem?_set_eq_of_lt _ hlen
    unfold SpriteSheet.advance
    dsimp only
    rw [hget2]
    dsimp only
    rw [increment_frame_idem, List.set_set]

/-- A second `run_animation` at the same clock reading is the identity on
the already-advanced sprite. -/
theorem run_animation_idem (s s2 : Sprite) (t : ℤ) (h : s.run_animation t = some s2) :
    s2.run_animation t = some s2 := by
  unfold Sprite.run_animation at h ⊢
  cases ha : s.sprite_sheet.advance t with
  | none => rw [ha] at h; cases h
  | some sh2 =>
    rw [ha] at h
    injection h with h
    subst h
    dsimp only
    rw [advance_idem s.sprite_sheet sh2 t ha]
    rfl

/-- A second animation pass at the same clock reading fixes the sprite
list. -/
theorem updateAnims_idem (t : ℤ) (l l2 : List Sprite) (h : updateAnims t l = some l2) :
    updateAnims t l2 = some l2 := by
  induction l generalizing l2 with
  | nil =>
    unfold updateAnims at h
    injection h with h
    subst h
    rfl
  | cons s rest ih =>
    unfold updateAnims at h
    cases h1 : s.run_animation t with
    | none => rw [h1] at h; cases h
    | some s2 =>
      rw [h1] at h
      cases h2 : updateAnims t rest with
      | none => rw [h2] at h; cases h
      | some rest2 =>
        rw [h2] at h
        injection h with h
        subst h
        unfold updateAnims
        rw [run_animation_idem s s2 t h1, ih rest2 h2]

/-- Two frames agreeing at an index, or an index inside the written
pixel, yield the same byte after the write. -/
theorem writePixel_congr (f g : Frame) (j : ℕ) (p : Rgba) (idx : ℕ)
    (h : f idx = g idx ∨ (j ≤ idx ∧ idx < j + 4)) :
    writePixel f j p idx = writePixel g j p idx := by
  unfold writePixel
  split_ifs with h1 h2 h3 h4 <;> try rfl
  rcases h with h | h
  · exact h
  · omega

/-- The background pass depends on the incoming frame only at the bytes
it does not overwrite. -/
theorem bgAux_congr (bg : Image) (k : ℕ) : ∀ (i : ℕ) (f g : Frame),
    (∀ idx, (idx < 4 * i ∨ 4 * (i + k) ≤ idx) → f idx = g idx) →
    bgAux bg i k f = bgAux bg i k g := by
  induction k with
  | zero =>
    intro i f g h
    unfold bgAux
    rw [funext fun idx => h idx (by omega)]
  | succ k ih =>
    intro i f g h
    unfold bgAux
    cases hp : bg.get_pixel (i % WORLD_WIDTH) (i / WORLD_WIDTH) with
    | none => rfl
    | some p =>
      apply ih
      intro idx hidx
      apply writePixel_congr
      by_cases hc : 4 * i ≤ idx ∧ idx < 4 * i + 4
      · exact Or.inr hc
      · exact Or.inl (h idx (by omega))

/-- The background pass leaves bytes at and above its range unchanged. -/
theorem bgAux_high (bg : Image) (k : ℕ) : ∀ (i : ℕ) (f r : Frame),
    bgAux bg i k f = some r → ∀ idx, 4 * (i + k) ≤ idx → r idx = f idx := by
  induction k with
  | zero =>
    intro i f r h idx _
    unfold bgAux at h
    injection h with h
    rw [← h]
  | succ k ih =>
    intro i f r h idx hidx
    unfold bgAux at h
    cases hp : bg.get_pixel (i % WORLD_WIDTH) (i / WORLD_WIDTH) with
    | none => rw [hp] at h; cases h
    | some p =>
      rw [hp] at h
      rw [ih (i + 1) _ r h idx (by omega)]
      exact writePixel_out f (4 * i) p idx (Or.inr (by omega))

/-- A single sprite-pixel write never touches bytes at or above `N4`. -/
theorem spritePixel_high (s : Sprite) (off : ℕ × ℕ) (f r : Frame) (z : ℕ)
    (h : spritePixel s off f z = some r) : ∀ idx, N4 ≤ idx → r idx = f idx := by
  intro idx hidx
  rw [spritePixel, spritePixelAt] at h
  by_cases hj : spriteDest s z + 4 ≤ N4
  · rw [if_pos hj] at h
    cases hp : s.get_sprite_sheet.get_pixel (spriteLocalX s z + off.1)
        (spriteLocalY s z + off.2) with
    | none => rw [hp] at h; cases h
    | some src =>
      rw [hp] at h
      injection h with h
      rw [← h]
      exact writePixel_out f _ _ idx (Or.inr (by omega))
  · rw [if_neg hj] at h
    cases h

/-- Unfolding lemma: the pixel loop with no iterations left. -/
theorem spriteAux_zero (s : Sprite) (off : ℕ × ℕ) (z : ℕ) (f : Frame) :
    spriteAux s off z 0 f = some f := rfl

/-- Unfolding lemma: one iteration of the pixel loop. -/
theorem spriteAux_succ (s : Sprite) (off : ℕ × ℕ) (z k : ℕ) (f : Frame) :
    spriteAux s off z (k + 1) f =
      (spritePixel s off f z).bind (fun f2 => spriteAux s off (z + 1) k f2) := rfl

/-- The per-sprite pixel loop never touches bytes at or above `N4`. -/
theorem spriteAux_high (s : Sprite) (off : ℕ × ℕ) (k : ℕ) : ∀ (z : ℕ) (f r : Frame),
    spriteAux s off z k f = some r → ∀ idx, N4 ≤ idx → r idx = f idx := by
  induction k with
  | zero =>
    intro z f r h idx _
    rw [spriteAux_zero] at h
    injection h with h
    rw [← h]
  | succ k ih =>
    intro z f r h idx hidx
    rw [spriteAux_succ] at h
    cases hp : spritePixel s off f z with
    | none => rw [hp, Option.none_bind] at h; cases h
    | some f2 =>
      rw [hp, Option.some_bind] at h
      rw [ih (z + 1) f2 r h idx hidx]
      exact spritePixel_high s off f f2 z hp idx hidx

/-- The whole sprite pass never touches bytes at or above `N4`. -/
theorem spritesPass_high (l : List Sprite) : ∀ (f r : Frame),
    spritesPass l f = some r → ∀ idx, N4 ≤ idx → r idx = f idx := by
  induction l with
  | nil =>
    intro f r h idx _
    unfold spritesPass at h
    injection h with h
    rw [← h]
  | cons s rest ih =>
    intro f r h idx hidx
    unfold spritesPass at h
    cases hd : drawSprite s f with
    | none => rw [hd] at h; cases h
    | some f2 =>
      rw [hd] at h
      rw [ih f2 r h idx hidx]
      unfold drawSprite at hd
      cases ho : s.get_sheet_offset with
      | none => rw [ho] at hd; cases hd
      | some off =>
        rw [ho] at hd
        exact spriteAux_high s off _ 0 f f2 hd idx hidx

/-- Claim C9: calling `draw` twice with the clock frozen and no
intervening input or state change produces the same world and the same,
byte-identical buffer — composing a second `draw` after a successful one
changes nothing. -/
theorem draw_idempotent (w : World) (t : ℤ) (f : Frame) :
    (w.draw t f).bind (fun p => p.1.draw t p.2) = w.draw t f := by
  cases hd : w.draw t f with
  | none => rfl
  | some p =>
    obtain ⟨w2, f2⟩ := p
    show w2.draw t f2 = some (w2, f2)
    unfold World.draw at hd
    cases hu : updateAnims t w.sprites with
    | none => rw [hu, Option.none_bind] at hd; cases hd
    | some l2 =>
      rw [hu, Option.some_bind] at hd
      cases hb : bgPass w.background_image f with
      | none => rw [hb, Option.none_bind] at hd; cases hd
      | some f1 =>
        rw [hb, Option.some_bind] at hd
        cases hs : spritesPass l2 f1 with
        | none => rw [hs, Option.map_none'] at hd; cases hd
        | some f2' =>
          rw [hs, Option.map_some'] at hd
          injection hd with hd
          injection hd with hw2 hf2
          subst hw2
          subst hf2
          have hN4 : 4 * (0 + WORLD_WIDTH * WORLD_HEIGHT) = N4 := by decide
          have hagree : ∀ idx, (idx < 4 * 0 ∨ 4 * (0 + WORLD_WIDTH * WORLD_HEIGHT) ≤ idx) →
              f2' idx = f idx := by
            intro idx hidx
            have hge : N4 ≤ idx := by omega
            calc f2' idx = f1 idx := spritesPass_high l2 f1 f2' hs idx hge
              _ = f idx := bgAux_high w.background_image (WORLD_WIDTH * WORLD_HEIGHT) 0 f f1 hb
                    idx (by omega)
          have hbg2 : bgPass w.background_image f2' = some f1 := by
            rw [bgPass,
              bgAux_congr w.background_image (WORLD_WIDTH * WORLD_HEIGHT) 0 f2' f hagree]
            exact hb
          have hu2 : updateAnims t l2 = some l2 := updateAnims_idem t w.sprites l2 hu
          unfold World.draw
          dsimp only
          rw [hu2, Option.some_bind, hbg2, Option.some_bind, hs, Option.map_some']

end SimpleRenderer
